import Mathlib

/-!
# Text summarizer: request orchestration and response normalisation

A shallow embedding of `src/text-summarizer/src/App.jsx` (the `makeRequest` and
`handleSummarize` closures of the `App` component) together with the properties
proved about it.

Modelling decisions.

* JavaScript strings are Lean strings; `trim` and `includes` are modelled after
  ECMAScript (`jsTrim`, `includes`).
* A JSON value is a `Json`; a number is given by whether it is zero and by the
  text `ToString` prints for it, which is all the handler observes of a number (it
  tests numbers for truthiness and, for a truthy `error` field, converts them to
  text).
* The result of a property read is `Option Json`, `none` standing for `undefined`.
* A thrown value is a `JsError` (its `name` and `message`).
* `fetch` is a parameter: a function from the request to either a rejection or a
  response. The body of a response is either JSON text (given by its parsed value)
  or text that `response.json()` rejects with a `SyntaxError`.
* The handler is `async`; its effects happen in program order, so a run is the list
  of its effects (`Event`): the three state setters and the requests it issues.
  `console.log` and `console.error` calls are not modelled.
-/

namespace TextSummarizer

/-! ## JavaScript values -/

/-- A number value, given by the two things the handler can observe of it. Any
double is covered, whatever text the engine prints for it. -/
structure JsNumber where
  /-- Whether the number is `0` or `-0`, the falsy numbers `JSON.parse` can give. -/
  isZero : Bool
  /-- The text `ToString` gives the number. -/
  text : String
deriving DecidableEq, Repr

/-- A value produced by `JSON.parse`. An object is the list of its own properties,
an earlier entry taking precedence over a later one with the same key. -/
inductive Json where
  | null : Json
  | bool (b : Bool) : Json
  | num (n : JsNumber) : Json
  | str (s : String) : Json
  | arr (items : List Json) : Json
  | obj (fields : List (String × Json)) : Json

/-- A thrown JavaScript error: `err.name` and `err.message`. -/
structure JsError where
  name : String
  message : String
deriving DecidableEq, Repr

/-- Own-property lookup in an object. -/
def lookupField (key : String) : List (String × Json) → Option Json
  | [] => none
  | (k, v) :: rest => if k = key then some v else lookupField key rest

/-- The property read `v.key` for a key that no built-in prototype defines (the
handler reads only `error` and `summary_text`). Reading a property of `null` throws
a `TypeError` whose message is the engine's (`typeErrorMessage key`); a primitive or
an array has no such property (`undefined`, here `none`). -/
def getProp (typeErrorMessage : String → String) (v : Json) (key : String) :
    Except JsError (Option Json) :=
  match v with
  | .null => .error ⟨"TypeError", typeErrorMessage key⟩
  | .obj fields => .ok (lookupField key fields)
  | _ => .ok none

/-- JavaScript truthiness (`ToBoolean`) of a JSON value. -/
def Json.truthy : Json → Bool
  | .null => false
  | .bool b => b
  | .num n => !n.isZero
  | .str s => s != ""
  | .arr _ => true
  | .obj _ => true

/-- Truthiness of the result of a property read; `undefined` is falsy. -/
def truthy : Option Json → Bool
  | none => false
  | some v => v.truthy

mutual
/-- JavaScript `ToString` of a JSON value, as applied by `new Error(message)`. An
object with an own property `toString` cannot be converted: its `toString` is not
callable and the inherited `valueOf` returns the object, so a `TypeError` is thrown,
with the engine's message `toPrimitiveMessage`. Any other object prints through
`Object.prototype.toString`, an array through `join`. -/
def Json.toJsString (toPrimitiveMessage : String) : Json → Except JsError String
  | .null => .ok "null"
  | .bool b => .ok (if b then "true" else "false")
  | .num n => .ok n.text
  | .str s => .ok s
  | .arr items => joinItems toPrimitiveMessage items
  | .obj fields =>
    match lookupField "toString" fields with
    | some _ => .error ⟨"TypeError", toPrimitiveMessage⟩
    | none => .ok "[object Object]"
/-- The text of `Array.prototype.join` with the default separator, or the error
the conversion of an element throws. -/
def joinItems (toPrimitiveMessage : String) : List Json → Except JsError String
  | [] => .ok ""
  | [x] => itemString toPrimitiveMessage x
  | x :: y :: rest =>
    match itemString toPrimitiveMessage x with
    | .error e => .error e
    | .ok first =>
      match joinItems toPrimitiveMessage (y :: rest) with
      | .error e => .error e
      | .ok others => .ok (first ++ "," ++ others)
/-- The text of one array element inside `join`: `null` contributes nothing, any
other element its `ToString`. -/
def itemString (toPrimitiveMessage : String) : Json → Except JsError String
  | .null => .ok ""
  | .bool b => .ok (if b then "true" else "false")
  | .num n => .ok n.text
  | .str s => .ok s
  | .arr items => joinItems toPrimitiveMessage items
  | .obj fields =>
    match lookupField "toString" fields with
    | some _ => .error ⟨"TypeError", toPrimitiveMessage⟩
    | none => .ok "[object Object]"
end

/-! ## Strings -/

/-- The code points `String.prototype.trim` strips: ECMAScript `WhiteSpace` and
`LineTerminator`. -/
def isJsWhiteSpace (c : Char) : Bool :=
  c.toNat = 0x09 || c.toNat = 0x0A || c.toNat = 0x0B || c.toNat = 0x0C ||
  c.toNat = 0x0D || c.toNat = 0x20 || c.toNat = 0xA0 || c.toNat = 0x1680 ||
  (0x2000 ≤ c.toNat && c.toNat ≤ 0x200A) || c.toNat = 0x2028 || c.toNat = 0x2029 ||
  c.toNat = 0x202F || c.toNat = 0x205F || c.toNat = 0x3000 || c.toNat = 0xFEFF

/-- The method `String.prototype.trim`: white space removed from both ends. -/
def jsTrim (s : String) : String :=
  String.mk ((s.data.dropWhile isJsWhiteSpace).reverse.dropWhile isJsWhiteSpace).reverse

/-- The method `String.prototype.includes`: `sub` occurs in `s` as a contiguous run. -/
def includes (s sub : String) : Bool :=
  decide (sub.data <:+: s.data)

/-- One hexadecimal digit, lower case as `JSON.stringify` writes it. -/
def hexDigit (n : Nat) : Char :=
  if n < 10 then Char.ofNat (48 + n) else Char.ofNat (87 + n)

/-- The escape `JSON.stringify` writes for one character of a string. -/
def quoteChar (c : Char) : List Char :=
  if c = '\x22' then ['\x5c', '\x22']
  else if c = '\x5c' then ['\x5c', '\x5c']
  else if c = '\x08' then ['\x5c', 'b']
  else if c = '\x0c' then ['\x5c', 'f']
  else if c = '\x0a' then ['\x5c', 'n']
  else if c = '\x0d' then ['\x5c', 'r']
  else if c = '\x09' then ['\x5c', 't']
  else if c.toNat < 0x20 then
    ['\x5c', 'u', '0', '0', hexDigit (c.toNat / 16), hexDigit (c.toNat % 16)]
  else [c]

/-- The text `JSON.stringify` gives for a string: quoted and escaped. -/
def jsonQuote (s : String) : String :=
  String.mk ('\x22' :: (s.data.flatMap quoteChar ++ ['\x22']))

/-! ## Reading JSON text

The decoder below follows the JSON grammar (ECMA-404) as `JSON.parse` reads it,
within the values of this model: numbers are integer literals of at most fifteen
digits, and an escape
`\uXXXX` that names a surrogate is not read. It is used to state what the body
written by `JSON.stringify` decodes to. -/

/-- The value of a hexadecimal digit, in either case. -/
def hexValue (c : Char) : Option Nat :=
  if 48 ≤ c.toNat ∧ c.toNat ≤ 57 then some (c.toNat - 48)
  else if 97 ≤ c.toNat ∧ c.toNat ≤ 102 then some (c.toNat - 87)
  else if 65 ≤ c.toNat ∧ c.toNat ≤ 70 then some (c.toNat - 55)
  else none

/-- The character a two-character escape stands for, given its second character. -/
def unescapeChar (c : Char) : Option Char :=
  if c = '\x22' then some '\x22'
  else if c = '\x5c' then some '\x5c'
  else if c = '/' then some '/'
  else if c = 'b' then some '\x08'
  else if c = 'f' then some '\x0c'
  else if c = 'n' then some '\x0a'
  else if c = 'r' then some '\x0d'
  else if c = 't' then some '\x09'
  else none

/-- The code point of a four-digit escape, surrogates excluded. -/
def unicodeEscape (a b c d : Char) : Option Char :=
  match hexValue a, hexValue b, hexValue c, hexValue d with
  | some x, some y, some z, some w =>
    let n := ((x * 16 + y) * 16 + z) * 16 + w
    if 0xD800 ≤ n ∧ n ≤ 0xDFFF then none else some (Char.ofNat n)
  | _, _, _, _ => none

/-- A JSON string read from just after its opening quote: its characters and the
text after its closing quote. A raw control character is not allowed. -/
def readStringBody : List Char → Option (List Char × List Char)
  | [] => none
  | c :: rest =>
    if c = '\x22' then some ([], rest)
    else if c = '\x5c' then
      match rest with
      | [] => none
      | e :: rest1 =>
        if e = 'u' then
          match rest1 with
          | a :: b :: c2 :: d :: rest2 =>
            match unicodeEscape a b c2 d, readStringBody rest2 with
            | some ch, some (chars, after) => some (ch :: chars, after)
            | _, _ => none
          | _ => none
        else
          match unescapeChar e, readStringBody rest1 with
          | some ch, some (chars, after) => some (ch :: chars, after)
          | _, _ => none
    else if c.toNat < 0x20 then none
    else
      match readStringBody rest with
      | some (chars, after) => some (c :: chars, after)
      | none => none

/-- JSON white space skipped. -/
def skipWs : List Char → List Char
  | [] => []
  | c :: rest =>
    if c = ' ' ∨ c = '\x09' ∨ c = '\x0a' ∨ c = '\x0d' then skipWs rest else c :: rest

/-- The number a run of decimal digits writes. -/
def digitsValue (digits : List Char) : Nat :=
  digits.foldl (fun n d => 10 * n + (d.toNat - 48)) 0

/-- An integer literal of at most fifteen digits, which a double holds exactly and
`ToString` prints in plain decimal: an optional minus sign and digits without a
leading zero. A longer literal, a fraction or an exponent is not read. -/
def readNumber (cs : List Char) : Option (Json × List Char) :=
  let negative := cs.head? = some '-'
  let unsigned := if negative then cs.drop 1 else cs
  let digits := unsigned.takeWhile Char.isDigit
  let after := unsigned.dropWhile Char.isDigit
  if digits = [] then none
  else if 1 < digits.length ∧ digits.head? = some '0' then none
  else if 15 < digits.length then none
  else if after.head? = some '.' ∨ after.head? = some 'e' ∨ after.head? = some 'E' then none
  else if digitsValue digits = 0 then some (.num ⟨true, "0"⟩, after)
  else if negative then some (.num ⟨false, String.mk ('-' :: digits)⟩, after)
  else some (.num ⟨false, String.mk digits⟩, after)

mutual
/-- A JSON value read from the front of the text, with the text after it. The first
argument bounds the recursion: one unit for each level of nesting and each member
or element. -/
def readValue : Nat → List Char → Option (Json × List Char)
  | 0, _ => none
  | fuel + 1, cs =>
    match skipWs cs with
    | [] => none
    | c :: rest =>
      if c = '\x22' then
        match readStringBody rest with
        | some (chars, after) => some (.str (String.mk chars), after)
        | none => none
      else if c = '\x7b' then
        match skipWs rest with
        | [] => none
        | c1 :: rest1 =>
          if c1 = '\x7d' then some (.obj [], rest1)
          else
            match readMembers fuel (c1 :: rest1) with
            | some (fields, after) => some (.obj fields, after)
            | none => none
      else if c = '[' then
        match skipWs rest with
        | [] => none
        | c1 :: rest1 =>
          if c1 = ']' then some (.arr [], rest1)
          else
            match readElements fuel (c1 :: rest1) with
            | some (items, after) => some (.arr items, after)
            | none => none
      else
        match c :: rest with
        | 'n' :: 'u' :: 'l' :: 'l' :: after => some (.null, after)
        | 't' :: 'r' :: 'u' :: 'e' :: after => some (.bool true, after)
        | 'f' :: 'a' :: 'l' :: 's' :: 'e' :: after => some (.bool false, after)
        | other => readNumber other
/-- The members of an object read up to its closing brace. A later member with the
same key takes precedence, so it is put in front. -/
def readMembers : Nat → List Char → Option (List (String × Json) × List Char)
  | 0, _ => none
  | fuel + 1, cs =>
    match skipWs cs with
    | [] => none
    | c :: rest =>
      if c = '\x22' then
        match readStringBody rest with
        | none => none
        | some (key, rest1) =>
          match skipWs rest1 with
          | [] => none
          | c1 :: rest2 =>
            if c1 = ':' then
              match readValue fuel rest2 with
              | none => none
              | some (v, rest3) =>
                match skipWs rest3 with
                | [] => none
                | c2 :: rest4 =>
                  if c2 = '\x7d' then some ([(String.mk key, v)], rest4)
                  else if c2 = ',' then
                    match readMembers fuel rest4 with
                    | some (fields, after) => some (fields ++ [(String.mk key, v)], after)
                    | none => none
                  else none
            else none
      else none
/-- The elements of an array read up to its closing bracket. -/
def readElements : Nat → List Char → Option (List Json × List Char)
  | 0, _ => none
  | fuel + 1, cs =>
    match readValue fuel cs with
    | none => none
    | some (v, rest) =>
      match skipWs rest with
      | [] => none
      | c :: rest1 =>
        if c = ']' then some ([v], rest1)
        else if c = ',' then
          match readElements fuel rest1 with
          | some (items, after) => some (v :: items, after)
          | none => none
        else none
end

/-- The function `JSON.parse`: the value the whole text denotes, if it is JSON. The
length of the text bounds the recursion. -/
def jsonParse (text : String) : Option Json :=
  match readValue (text.length + 1) text.data with
  | some (v, after) => if skipWs after = [] then some v else none
  | none => none

/-! ## The environment, the network and the component state -/

/-- What the component reads from its surroundings: the two `import.meta.env`
entries and the messages the engine gives the two `TypeError`s the handler can
raise. -/
structure Env where
  /-- The entry `import.meta.env.VITE_HUGGING_FACE_TOKEN`: a string or `undefined`. -/
  apiKey : Option String
  /-- The flag `import.meta.env.DEV`. -/
  dev : Bool
  /-- The engine's `TypeError` message for reading the given property of `null`. -/
  typeErrorMessage : String → String
  /-- The engine's `TypeError` message for an object that cannot be converted to a
  primitive value. -/
  toPrimitiveMessage : String

/-- The second argument of `fetch` together with its first. -/
structure Request where
  url : String
  method : String
  headers : List (String × String)
  body : String
deriving DecidableEq, Repr

/-- The body of a response as `response.json()` sees it. -/
inductive Body where
  /-- JSON text, given by the value it parses to. -/
  | json (v : Json) : Body
  /-- Text that is not JSON: `response.json()` rejects with a `SyntaxError`
  carrying this message. -/
  | notJson (syntaxErrorMessage : String) : Body

/-- A response `fetch` resolves to. -/
structure Response where
  status : Nat
  statusText : String
  url : String
  body : Body

/-- The getter `response.ok`: the status is in the range 200 to 299. -/
def Response.ok (r : Response) : Bool :=
  200 ≤ r.status && r.status ≤ 299

/-- The behaviour of `fetch`: it rejects with an error or resolves to a response. -/
abbrev Network := Request → Except JsError Response

/-- The method `response.json()`. -/
def Response.json (r : Response) : Except JsError Json :=
  match r.body with
  | .json v => .ok v
  | .notJson m => .error ⟨"SyntaxError", m⟩

/-- One effect of the handler. -/
inductive Event where
  | setLoading (b : Bool) : Event
  | setError (e : Option String) : Event
  | setSummary (v : Json) : Event
  | fetch (req : Request) : Event

/-- The three `useState` cells the handler writes. -/
structure UiState where
  summary : Json
  loading : Bool
  error : Option String

/-- The state after one effect. -/
def UiState.apply (st : UiState) : Event → UiState
  | .setLoading b => { st with loading := b }
  | .setError e => { st with error := e }
  | .setSummary v => { st with summary := v }
  | .fetch _ => st

/-- The state after a run. -/
def UiState.run (st : UiState) (events : List Event) : UiState :=
  events.foldl UiState.apply st

/-- The requests a run issued, in order. -/
def requests : List Event → List Request
  | [] => []
  | .fetch req :: rest => req :: requests rest
  | _ :: rest => requests rest

/-! ## The component: constants and messages -/

/-- The constant `API_URL` (line 6). -/
def API_URL : String :=
  "https://router.huggingface.co/hf-inference/models/facebook/bart-large-cnn"

/-- The local `proxyUrl` of `handleSummarize` (line 54). -/
def proxyUrl : String := "/api/huggingface/models/facebook/bart-large-cnn"

/-- The message set for blank input (line 39). -/
def msgInvalidInput : String := "Please enter some text to summarize."

/-- The message set for an absent credential (line 45). -/
def msgMissingCredential : String :=
  "API key is missing. Please set VITE_HUGGING_FACE_TOKEN in your .env file."

/-- The initial value of `errorMessage` in the non-ok branch (line 81). -/
def msgFailed : String := "Failed to get a summary."

/-- The message for status 503 (line 90). -/
def msgModelLoading : String := "Model is loading. Please wait a moment and try again."

/-- The message for status 401 (line 92). -/
def msgAuth : String := "Invalid API key. Please check your VITE_HUGGING_FACE_TOKEN."

/-- The message for status 429 (line 94). -/
def msgRateLimited : String := "Rate limit exceeded. Please try again later."

/-- The message for status 404 when the body is JSON (line 96). -/
def msgNotFound : String :=
  "API endpoint not found (404). The model 'facebook/bart-large-cnn' may not be available or the endpoint URL is incorrect. Try checking the Hugging Face model page: https://huggingface.co/facebook/bart-large-cnn"

/-- The message for status 410 when the body is JSON (line 98). -/
def msgGone : String :=
  "API endpoint is no longer available (410 Gone). The endpoint may have been deprecated or moved. Please check Hugging Face documentation for the current API format."

/-- The message for status 404 when the body is not JSON (line 105); `url` is
`response.url`, replaced by `unknown` when empty. -/
def msgNotFoundPlain (url : String) : String :=
  "HTTP 404: The API endpoint was not found. URL: " ++ (if url != "" then url else "unknown") ++
    ". Please verify the endpoint is correct."

/-- The message for status 410 when the body is not JSON (line 107). -/
def msgGonePlain : String :=
  "HTTP 410: The API endpoint is no longer available (Gone). The endpoint format may have changed. Please check Hugging Face API documentation."

/-- The message for any other status when the body is not JSON (line 109). -/
def msgHttp (status : Nat) (statusText : String) : String :=
  "HTTP " ++ toString status ++ ": " ++ statusText

/-- The message thrown for a 2xx body of no accepted shape (line 125). -/
def msgMalformed : String := "API did not return a valid summary format."

/-- The initial value of `errorMessage` in the outer `catch` (line 131). -/
def msgUnexpected : String := "An unexpected error occurred. Please try again."

/-- The message for a failed `fetch` (line 134). -/
def msgNetwork : String :=
  "Network error: Unable to connect to the API. This might be due to CORS restrictions, network connectivity issues, or the API service being temporarily unavailable. Please check your internet connection, restart the dev server, and try again."

/-! ## The component: `makeRequest` and `handleSummarize` -/

/-- The request `makeRequest(url)` passes to `fetch` (lines 16 to 29). The body is
`JSON.stringify` of the object with the single property `inputs`; the template
literal renders an `undefined` key as the text `undefined`. -/
def makeRequest (env : Env) (inputText : String) (url : String) : Request :=
  { url := url
    method := "POST"
    headers :=
      [("Authorization", "Bearer " ++ (match env.apiKey with | some k => k | none => "undefined")),
       ("Content-Type", "application/json")]
    body := "\x7b\"inputs\":" ++ jsonQuote inputText ++ "\x7d" }

/-- The inner `try` of the non-ok branch (lines 84 to 99): the value `errorMessage`
holds when the block completes, or the error it throws. -/
def errorMessageFromJson (env : Env) (response : Response) : Except JsError Json :=
  match response.json with
  | .error e => .error e
  | .ok errorData =>
    match getProp env.typeErrorMessage errorData "error" with
    | .error e => .error e
    | .ok err =>
      if truthy err then .ok (err.getD .null)
      else if response.status = 503 then .ok (.str msgModelLoading)
      else if response.status = 401 then .ok (.str msgAuth)
      else if response.status = 429 then .ok (.str msgRateLimited)
      else if response.status = 404 then .ok (.str msgNotFound)
      else if response.status = 410 then .ok (.str msgGone)
      else .ok (.str msgFailed)

/-- The value of `errorMessage` when line 112 is reached (lines 81 to 111). The
inner `catch` replaces whatever the `try` threw by a message chosen from the status
alone. -/
def nonOkMessage (env : Env) (response : Response) : Json :=
  match errorMessageFromJson env response with
  | .ok m => m
  | .error _ =>
    if response.status = 404 then .str (msgNotFoundPlain response.url)
    else if response.status = 410 then .str msgGonePlain
    else .str (msgHttp response.status response.statusText)

/-- The non-ok branch (lines 81 to 112): the error it throws. On line 112
`new Error(errorMessage)` converts the message to a string; when that conversion
throws, its `TypeError` is what leaves the branch. -/
def nonOkError (env : Env) (response : Response) : JsError :=
  match (nonOkMessage env response).toJsString env.toPrimitiveMessage with
  | .ok message => ⟨"Error", message⟩
  | .error conversionError => conversionError

/-- The shape checks on a 2xx body (lines 118 to 126): the value passed to
`setSummary`, or the error thrown. -/
def selectSummary (env : Env) (data : Json) : Except JsError Json :=
  let viaFirst : Except JsError (Option Json) :=
    match data with
    | .arr (first :: _) => getProp env.typeErrorMessage first "summary_text"
    | _ => .ok none
  match viaFirst with
  | .error e => .error e
  | .ok fromFirst =>
    if truthy fromFirst then .ok (fromFirst.getD .null)
    else
      match getProp env.typeErrorMessage data "summary_text" with
      | .error e => .error e
      | .ok direct =>
        if truthy direct then .ok (direct.getD .null)
        else
          match data with
          | .str _ => .ok data
          | _ => .error ⟨"Error", msgMalformed⟩

/-- What the outer `try` does with a response (lines 76 to 126). -/
def interpret (env : Env) (response : Response) : List Event × Except JsError Unit :=
  if !response.ok then ([], .error (nonOkError env response))
  else
    match response.json with
    | .error e => ([], .error e)
    | .ok data =>
      match selectSummary env data with
      | .error e => ([], .error e)
      | .ok v => ([.setSummary v], .ok ())

/-- The endpoint call of the outer `try` (lines 53 to 74): the request issued and
what `fetch` answered. In development mode the proxy is called; otherwise the
direct URL, and the inner `catch` rethrows what `fetch` rejected with. Neither
branch calls the other endpoint. -/
def callEndpoint (env : Env) (inputText : String) (net : Network) :
    List Event × Except JsError Response :=
  if env.dev then
    let req := makeRequest env inputText proxyUrl
    ([.fetch req], net req)
  else
    let req := makeRequest env inputText API_URL
    match net req with
    | .ok response => ([.fetch req], .ok response)
    | .error directError => ([.fetch req], .error directError)

/-- The outer `try` block (lines 50 to 126): its effects and how it completes.
The test `!response` of line 76 never holds, a response being an object. -/
def tryBlock (env : Env) (inputText : String) (net : Network) :
    List Event × Except JsError Unit :=
  match callEndpoint env inputText net with
  | (sent, .error err) => (sent, .error err)
  | (sent, .ok response) =>
    let (events, outcome) := interpret env response
    (sent ++ events, outcome)

/-- The message the outer `catch` passes to `setError` (lines 131 to 137). -/
def catchMessage (err : JsError) : String :=
  if err.name = "TypeError" && includes err.message "Failed to fetch" then msgNetwork
  else if err.message != "" then err.message
  else msgUnexpected

/-- The handler `handleSummarize` (lines 33 to 143): the effects of one run, in
order. -/
def handleSummarize (env : Env) (inputText : String) (net : Network) : List Event :=
  [.setLoading true, .setError none, .setSummary (.str "")] ++
  if jsTrim inputText = "" then
    [.setError (some msgInvalidInput), .setLoading false]
  else if env.apiKey.getD "" = "" then
    [.setError (some msgMissingCredential), .setLoading false]
  else
    let (events, outcome) := tryBlock env inputText net
    events ++
      (match outcome with
        | .ok _ => []
        | .error err => [.setError (some (catchMessage err))]) ++
      [.setLoading false]

/-- The URL the handler calls: the branch of lines 56 to 74 read as a function of
the mode. -/
def endpointUrl (env : Env) : String :=
  if env.dev then proxyUrl else API_URL

/-- The request the handler issues when both checks pass. -/
def issuedRequest (env : Env) (inputText : String) : Request :=
  makeRequest env inputText (endpointUrl env)

/-- An environment and an input that pass both local checks of the handler. -/
def Valid (env : Env) (inputText : String) : Prop :=
  jsTrim inputText ≠ "" ∧ ∃ key, env.apiKey = some key ∧ key ≠ ""

/-- The state the handler leaves, started from `st`. -/
def finalState (env : Env) (inputText : String) (net : Network) (st : UiState) : UiState :=
  st.run (handleSummarize env inputText net)

/-- The state every concrete run starts from. -/
def st0 : UiState := ⟨.str "previous summary", false, some "previous error"⟩

/-- The environment of the concrete runs: a credential present, production
mode, and the messages V8 gives for a property read on `null` and for an object
that cannot be converted to a primitive value. -/
def env0 : Env :=
  ⟨some "hf_token", false,
    fun key => "Cannot read properties of null (reading '" ++ key ++ "')",
    "Cannot convert object to primitive value"⟩

/-! ## Shared lemmas -/

/-- A string of white space only trims to the empty string. -/
theorem jsTrim_of_all_whiteSpace (s : String)
    (h : ∀ c ∈ s.data, isJsWhiteSpace c = true) : jsTrim s = "" := by
  have h1 : s.data.dropWhile isJsWhiteSpace = [] := by
    rw [List.dropWhile_eq_nil_iff]
    exact h
  simp [jsTrim, h1]

/-- What the run of the handler is when the input is blank. -/
theorem handleSummarize_blank (env : Env) (inputText : String) (net : Network)
    (h : jsTrim inputText = "") :
    handleSummarize env inputText net =
      [.setLoading true, .setError none, .setSummary (.str ""),
       .setError (some msgInvalidInput), .setLoading false] := by
  simp [handleSummarize, h]

/-- What the run of the handler is when the input is not blank and the credential
is absent. -/
theorem handleSummarize_noKey (env : Env) (inputText : String) (net : Network)
    (hIn : jsTrim inputText ≠ "") (hKey : env.apiKey = none ∨ env.apiKey = some "") :
    handleSummarize env inputText net =
      [.setLoading true, .setError none, .setSummary (.str ""),
       .setError (some msgMissingCredential), .setLoading false] := by
  rcases hKey with hKey | hKey <;> simp [handleSummarize, hIn, hKey]

/-- What the run of the handler is when both checks pass: the effects of the
outer `try`, then the `catch` if it threw, then the `finally`. -/
theorem handleSummarize_valid (env : Env) (inputText : String) (net : Network)
    (key : String) (hIn : jsTrim inputText ≠ "") (hKey : env.apiKey = some key)
    (hNe : key ≠ "") :
    handleSummarize env inputText net =
      [.setLoading true, .setError none, .setSummary (.str "")] ++
        ((tryBlock env inputText net).1 ++
          (match (tryBlock env inputText net).2 with
            | .ok _ => []
            | .error err => [.setError (some (catchMessage err))]) ++
          [.setLoading false]) := by
  simp [handleSummarize, hIn, hKey, hNe]

/-- The endpoint call issues the request of the mode and returns what `fetch`
answered. -/
theorem callEndpoint_eq (env : Env) (inputText : String) (net : Network) :
    callEndpoint env inputText net =
      ([.fetch (issuedRequest env inputText)], net (issuedRequest env inputText)) := by
  unfold callEndpoint issuedRequest endpointUrl
  cases hd : env.dev
  · simp only [Bool.false_eq_true, if_false]
    cases net (makeRequest env inputText API_URL) <;> rfl
  · simp

/-- The run of the handler when `fetch` resolves to `response`. -/
theorem handleSummarize_response (env : Env) (inputText : String) (net : Network)
    (response : Response) (hv : Valid env inputText)
    (hnet : net (issuedRequest env inputText) = .ok response) :
    handleSummarize env inputText net =
      [.setLoading true, .setError none, .setSummary (.str ""),
        .fetch (issuedRequest env inputText)] ++
        ((interpret env response).1 ++
          (match (interpret env response).2 with
            | .ok _ => []
            | .error err => [.setError (some (catchMessage err))]) ++
          [.setLoading false]) := by
  obtain ⟨hIn, key, hKey, hNe⟩ := hv
  rw [handleSummarize_valid env inputText net key hIn hKey hNe]
  simp [tryBlock, callEndpoint_eq, hnet]

/-- The run of the handler when `fetch` rejects with `err`. -/
theorem handleSummarize_rejected (env : Env) (inputText : String) (net : Network)
    (err : JsError) (hv : Valid env inputText)
    (hnet : net (issuedRequest env inputText) = .error err) :
    handleSummarize env inputText net =
      [.setLoading true, .setError none, .setSummary (.str ""),
        .fetch (issuedRequest env inputText),
        .setError (some (catchMessage err)), .setLoading false] := by
  obtain ⟨hIn, key, hKey, hNe⟩ := hv
  rw [handleSummarize_valid env inputText net key hIn hKey hNe]
  simp [tryBlock, callEndpoint_eq, hnet]

/-- The state left when `fetch` resolves to a response whose interpretation sets the
summary `v`. -/
theorem finalState_of_summary (env : Env) (inputText : String) (net : Network)
    (st : UiState) (response : Response) (v : Json) (hv : Valid env inputText)
    (hnet : net (issuedRequest env inputText) = .ok response)
    (hi : interpret env response = ([.setSummary v], .ok ())) :
    finalState env inputText net st = ⟨v, false, none⟩ := by
  unfold finalState
  rw [handleSummarize_response env inputText net response hv hnet, hi]
  simp [UiState.run, UiState.apply]

/-- The state left when `fetch` resolves to a response whose interpretation throws
`err`. -/
theorem finalState_of_thrown (env : Env) (inputText : String) (net : Network)
    (st : UiState) (response : Response) (err : JsError) (hv : Valid env inputText)
    (hnet : net (issuedRequest env inputText) = .ok response)
    (hi : interpret env response = ([], .error err)) :
    finalState env inputText net st = ⟨.str "", false, some (catchMessage err)⟩ := by
  unfold finalState
  rw [handleSummarize_response env inputText net response hv hnet, hi]
  simp [UiState.run, UiState.apply]

/-- The state left when `fetch` rejects with `err`. -/
theorem finalState_of_rejected (env : Env) (inputText : String) (net : Network)
    (st : UiState) (err : JsError) (hv : Valid env inputText)
    (hnet : net (issuedRequest env inputText) = .error err) :
    finalState env inputText net st = ⟨.str "", false, some (catchMessage err)⟩ := by
  unfold finalState
  rw [handleSummarize_rejected env inputText net err hv hnet]
  simp [UiState.run, UiState.apply]

/-- The interpretation of a 2xx response with a JSON body is decided by the shape
checks. -/
theorem interpret_ok_json (env : Env) (response : Response) (data : Json)
    (hok : response.ok = true) (hbody : response.body = .json data) :
    interpret env response =
      match selectSummary env data with
      | .error e => ([], .error e)
      | .ok v => ([.setSummary v], .ok ()) := by
  simp [interpret, hok, Response.json, hbody]

/-- The interpretation of a non-2xx response throws the error of the non-ok
branch. -/
theorem interpret_not_ok (env : Env) (response : Response) (hok : response.ok = false) :
    interpret env response = ([], .error (nonOkError env response)) := by
  simp [interpret, hok]

/-- An error made by `new Error(message)` is shown with its message when that is
not empty. -/
theorem catchMessage_plain (m : String) (hm : m ≠ "") : catchMessage ⟨"Error", m⟩ = m := by
  simp [catchMessage, hm]

/-- The value `undefined` is falsy. -/
theorem truthy_none : truthy none = false := rfl

/-- The state left by a non-2xx response: the error of the non-ok branch, as the
outer `catch` shows it. -/
theorem finalState_not_ok (env : Env) (inputText : String) (net : Network)
    (st : UiState) (response : Response) (hv : Valid env inputText)
    (hnet : net (issuedRequest env inputText) = .ok response)
    (hok : response.ok = false) :
    finalState env inputText net st =
      ⟨.str "", false, some (catchMessage (nonOkError env response))⟩ :=
  finalState_of_thrown env inputText net st response _ hv hnet
    (interpret_not_ok env response hok)

/-- The inner `try` of the non-ok branch on a JSON body that is not `null` and has
no truthy `error` property: the message is chosen by the status code. -/
theorem errorMessageFromJson_no_error (env : Env) (response : Response) (data : Json)
    (hbody : response.body = .json data) (hnull : data ≠ .null)
    (hfield : ∀ fields, data = .obj fields → truthy (lookupField "error" fields) = false) :
    errorMessageFromJson env response =
      .ok (.str (if response.status = 503 then msgModelLoading
        else if response.status = 401 then msgAuth
        else if response.status = 429 then msgRateLimited
        else if response.status = 404 then msgNotFound
        else if response.status = 410 then msgGone
        else msgFailed)) := by
  have hget : ∃ v, getProp env.typeErrorMessage data "error" = .ok v ∧ truthy v = false := by
    cases data with
    | null => exact absurd rfl hnull
    | obj fields => exact ⟨_, rfl, hfield fields rfl⟩
    | _ => exact ⟨none, rfl, rfl⟩
  obtain ⟨v, hg, hf⟩ := hget
  simp only [errorMessageFromJson, Response.json, hbody, hg, hf]
  split_ifs <;> simp_all

/-- The inner `try` of the non-ok branch throws on a body that is not JSON and on
the JSON body `null`. -/
theorem errorMessageFromJson_throws (env : Env) (response : Response)
    (hbody : (∃ m, response.body = .notJson m) ∨ response.body = .json .null) :
    ∃ e, errorMessageFromJson env response = .error e := by
  rcases hbody with ⟨m, hm⟩ | hn
  · exact ⟨⟨"SyntaxError", m⟩, by simp [errorMessageFromJson, Response.json, hm]⟩
  · exact ⟨⟨"TypeError", env.typeErrorMessage "error"⟩,
      by simp [errorMessageFromJson, Response.json, hn, getProp]⟩

/-- A string that contains `sub` still contains it with text added on both sides. -/
theorem includes_append (a s b sub : String) (h : includes s sub = true) :
    includes (a ++ s ++ b) sub = true := by
  simp only [includes, decide_eq_true_eq, String.data_append] at *
  exact h.trans (List.infix_append _ _ _)

/-- The interpretation of a response either sets a summary and completes, or has
no effect and throws. -/
theorem interpret_cases (env : Env) (response : Response) :
    (∃ v, interpret env response = ([.setSummary v], .ok ())) ∨
    (∃ e, interpret env response = ([], .error e)) := by
  unfold interpret
  cases response.ok
  · exact Or.inr ⟨_, rfl⟩
  · cases response.json with
    | error e => exact Or.inr ⟨e, rfl⟩
    | ok data =>
      cases hsel : selectSummary env data with
      | error e => exact Or.inr ⟨e, by simp [hsel]⟩
      | ok v => exact Or.inl ⟨v, by simp [hsel]⟩

/-- The message shown by the outer `catch` is never empty. -/
theorem catchMessage_ne_empty (err : JsError) : catchMessage err ≠ "" := by
  unfold catchMessage
  split_ifs with h1 h2
  · decide
  · simpa using h2
  · decide

/-- The run of the handler when both checks pass: one request, then either a
summary or an error, then the busy flag cleared. -/
theorem handleSummarize_valid_shapes (env : Env) (inputText : String) (net : Network)
    (hv : Valid env inputText) :
    (∃ v, handleSummarize env inputText net =
      [.setLoading true, .setError none, .setSummary (.str ""),
        .fetch (issuedRequest env inputText), .setSummary v, .setLoading false]) ∨
    (∃ err, handleSummarize env inputText net =
      [.setLoading true, .setError none, .setSummary (.str ""),
        .fetch (issuedRequest env inputText), .setError (some (catchMessage err)),
        .setLoading false]) := by
  cases hnet : net (issuedRequest env inputText) with
  | error err => exact Or.inr ⟨err, handleSummarize_rejected env inputText net err hv hnet⟩
  | ok response =>
    rw [handleSummarize_response env inputText net response hv hnet]
    rcases interpret_cases env response with ⟨v, hi⟩ | ⟨e, hi⟩
    · exact Or.inl ⟨v, by simp [hi]⟩
    · exact Or.inr ⟨e, by simp [hi]⟩

/-- Every input either fails a local check or passes both. -/
theorem blank_or_noKey_or_valid (env : Env) (inputText : String) :
    jsTrim inputText = "" ∨
    (jsTrim inputText ≠ "" ∧ (env.apiKey = none ∨ env.apiKey = some "")) ∨
    Valid env inputText := by
  by_cases hIn : jsTrim inputText = ""
  · exact Or.inl hIn
  · cases hKey : env.apiKey with
    | none => exact Or.inr (Or.inl ⟨hIn, Or.inl rfl⟩)
    | some key =>
      by_cases hNe : key = ""
      · exact Or.inr (Or.inl ⟨hIn, Or.inr (by rw [hNe])⟩)
      · exact Or.inr (Or.inr ⟨hIn, key, hKey, hNe⟩)

/-- A string contains itself. -/
theorem includes_self (s : String) : includes s s = true := by
  simp [includes]

/-- A string that contains `sub` still contains it with text added after it. -/
theorem includes_append_right (s b sub : String) (h : includes s sub = true) :
    includes (s ++ b) sub = true := by
  simp only [includes, decide_eq_true_eq, String.data_append] at *
  exact h.trans (List.infix_append' [] _ _)

/-- A string that contains `sub` still contains it with text added before it. -/
theorem includes_append_left (a s sub : String) (h : includes s sub = true) :
    includes (a ++ s) sub = true := by
  simp only [includes, decide_eq_true_eq, String.data_append] at *
  exact h.trans (List.suffix_append _ _).isInfix

/-- A string that starts with text that is not empty is not empty. -/
theorem append_ne_empty (a b : String) (h : a ≠ "") : a ++ b ≠ "" := by
  intro hab
  apply h
  have hd := congrArg String.data hab
  rw [String.data_append] at hd
  have ha : a.data = [] := (List.append_eq_nil.mp hd).1
  exact String.ext ha

/-- The message the inner `catch` of the non-ok branch chooses from the status. -/
theorem nonOkError_plain (env : Env) (response : Response) (m : String)
    (hbody : response.body = .notJson m) :
    nonOkError env response =
      ⟨"Error", if response.status = 404 then msgNotFoundPlain response.url
        else if response.status = 410 then msgGonePlain
        else msgHttp response.status response.statusText⟩ := by
  obtain ⟨e, he⟩ := errorMessageFromJson_throws env response (Or.inl ⟨m, hbody⟩)
  simp only [nonOkError, nonOkMessage, he]
  split_ifs <;> rfl

/-- None of the messages the inner `catch` chooses is empty. -/
theorem plain_message_ne_empty (status : Nat) (statusText url : String) :
    (if status = 404 then msgNotFoundPlain url
      else if status = 410 then msgGonePlain
      else msgHttp status statusText) ≠ "" := by
  split_ifs
  · exact append_ne_empty _ _ (append_ne_empty _ _ (by decide))
  · decide
  · exact append_ne_empty _ _ (append_ne_empty _ _ (append_ne_empty _ _ (by decide)))

/-- The errors the shape checks can throw. -/
theorem selectSummary_error (env : Env) (data : Json) (e : JsError)
    (h : selectSummary env data = .error e) :
    e = ⟨"TypeError", env.typeErrorMessage "summary_text"⟩ ∨ e = ⟨"Error", msgMalformed⟩ := by
  cases data with
  | null =>
    simp [selectSummary, getProp, truthy_none] at h
    exact Or.inl h.symm
  | bool b =>
    simp [selectSummary, getProp, truthy_none] at h
    exact Or.inr h.symm
  | num n =>
    simp [selectSummary, getProp, truthy_none] at h
    exact Or.inr h.symm
  | str s => simp [selectSummary, getProp, truthy_none] at h
  | obj fields =>
    by_cases ht : truthy (lookupField "summary_text" fields) = true
    · simp [selectSummary, getProp, truthy_none, ht] at h
    · simp [selectSummary, getProp, truthy_none, ht] at h
      exact Or.inr h.symm
  | arr items =>
    cases items with
    | nil =>
      simp [selectSummary, getProp, truthy_none] at h
      exact Or.inr h.symm
    | cons first rest =>
      cases first with
      | null =>
        simp [selectSummary, getProp] at h
        exact Or.inl h.symm
      | obj fields =>
        by_cases ht : truthy (lookupField "summary_text" fields) = true
        · simp [selectSummary, getProp, ht] at h
        · simp [selectSummary, getProp, truthy_none, ht] at h
          exact Or.inr h.symm
      | bool b =>
        simp [selectSummary, getProp, truthy_none] at h
        exact Or.inr h.symm
      | num n =>
        simp [selectSummary, getProp, truthy_none] at h
        exact Or.inr h.symm
      | str t =>
        simp [selectSummary, getProp, truthy_none] at h
        exact Or.inr h.symm
      | arr inner =>
        simp [selectSummary, getProp, truthy_none] at h
        exact Or.inr h.symm

mutual
/-- The only error `ToString` throws is the engine's `TypeError` for an object that
cannot be converted. -/
theorem toJsString_error (msg : String) :
    ∀ (v : Json) (e : JsError), v.toJsString msg = .error e → e = ⟨"TypeError", msg⟩
  | .null, e, h => by simp [Json.toJsString] at h
  | .bool b, e, h => by simp [Json.toJsString] at h
  | .num n, e, h => by simp [Json.toJsString] at h
  | .str t, e, h => by simp [Json.toJsString] at h
  | .arr items, e, h => joinItems_error msg items e (by simpa [Json.toJsString] using h)
  | .obj fields, e, h => by
    simp only [Json.toJsString] at h
    split at h
    · exact (Except.error.inj h).symm
    · simp at h
/-- The only error `join` throws is that of the conversion of an element. -/
theorem joinItems_error (msg : String) :
    ∀ (items : List Json) (e : JsError), joinItems msg items = .error e →
      e = ⟨"TypeError", msg⟩
  | [], e, h => by simp [joinItems] at h
  | [x], e, h => itemString_error msg x e (by simpa [joinItems] using h)
  | x :: y :: rest, e, h => by
    simp only [joinItems] at h
    split at h
    · rename_i e1 h1
      rw [← Except.error.inj h]
      exact itemString_error msg x e1 h1
    · split at h
      · rename_i e2 h2
        rw [← Except.error.inj h]
        exact joinItems_error msg (y :: rest) e2 h2
      · simp at h
/-- The only error the conversion of an array element throws. -/
theorem itemString_error (msg : String) :
    ∀ (v : Json) (e : JsError), itemString msg v = .error e → e = ⟨"TypeError", msg⟩
  | .null, e, h => by simp [itemString] at h
  | .bool b, e, h => by simp [itemString] at h
  | .num n, e, h => by simp [itemString] at h
  | .str t, e, h => by simp [itemString] at h
  | .arr items, e, h => joinItems_error msg items e (by simpa [itemString] using h)
  | .obj fields, e, h => by
    simp only [itemString] at h
    split at h
    · exact (Except.error.inj h).symm
    · simp at h
end

/-- The errors the non-ok branch can throw: one made by `new Error`, or the
`TypeError` of the conversion of its message. -/
theorem nonOkError_cases (env : Env) (response : Response) :
    (nonOkError env response).name = "Error" ∨
      nonOkError env response = ⟨"TypeError", env.toPrimitiveMessage⟩ := by
  unfold nonOkError
  cases he : (nonOkMessage env response).toJsString env.toPrimitiveMessage with
  | ok message => exact Or.inl rfl
  | error e => exact Or.inr (toJsString_error _ _ e he)

/-- The errors the interpretation of a response can throw: one made by
`new Error`, the `SyntaxError` of `response.json()`, the `TypeError` of a read
of `summary_text` on `null`, or the `TypeError` of a message that cannot be
converted to a string. -/
theorem interpret_error (env : Env) (response : Response) (events : List Event)
    (err : JsError) (h : interpret env response = (events, .error err)) :
    err.name = "Error" ∨ err.name = "SyntaxError" ∨
      err = ⟨"TypeError", env.typeErrorMessage "summary_text"⟩ ∨
      err = ⟨"TypeError", env.toPrimitiveMessage⟩ := by
  unfold interpret at h
  cases hok : response.ok
  · simp only [hok, Bool.not_false, if_true, Prod.mk.injEq, Except.error.injEq] at h
    rw [← h.2]
    rcases nonOkError_cases env response with hn | hn
    · exact Or.inl hn
    · exact Or.inr (Or.inr (Or.inr hn))
  · simp only [hok, Bool.not_true, Bool.false_eq_true, if_false] at h
    cases hj : response.json with
    | error e =>
      simp only [hj, Prod.mk.injEq, Except.error.injEq] at h
      right; left
      rw [← h.2]
      unfold Response.json at hj
      split at hj
      · simp at hj
      · simp only [Except.error.injEq] at hj
        rw [← hj]
    | ok data =>
      simp only [hj] at h
      cases hsel : selectSummary env data with
      | ok v => simp [hsel] at h
      | error e =>
        simp only [hsel, Prod.mk.injEq, Except.error.injEq] at h
        rw [← h.2]
        rcases selectSummary_error env data e hsel with he | he
        · right; right; left; exact he
        · left; rw [he]

/-- A hexadecimal digit written by `hexDigit` is read back by `hexValue`. -/
theorem hexValue_hexDigit (n : Nat) (h : n < 16) : hexValue (hexDigit n) = some n := by
  interval_cases n <;> rfl

/-- The four-digit escape written for a control character is read back as that
character. -/
theorem unicodeEscape_control (c : Char) (h : c.toNat < 0x20) :
    unicodeEscape '0' '0' (hexDigit (c.toNat / 16)) (hexDigit (c.toNat % 16)) = some c := by
  have h1 : hexValue (hexDigit (c.toNat / 16)) = some (c.toNat / 16) :=
    hexValue_hexDigit _ (by omega)
  have h2 : hexValue (hexDigit (c.toNat % 16)) = some (c.toNat % 16) :=
    hexValue_hexDigit _ (by omega)
  have h0 : hexValue '0' = some 0 := rfl
  have hn : ((0 * 16 + 0) * 16 + c.toNat / 16) * 16 + c.toNat % 16 = c.toNat := by omega
  simp only [unicodeEscape, h0, h1, h2, hn]
  have hs : ¬(0xD800 ≤ c.toNat ∧ c.toNat ≤ 0xDFFF) := by omega
  simp [hs]

/-- One step of `readStringBody` on a text that is not empty. -/
theorem readStringBody_cons (c : Char) (rest : List Char) :
    readStringBody (c :: rest) =
      if c = '\x22' then some ([], rest)
      else if c = '\x5c' then
        match rest with
        | [] => none
        | e :: rest1 =>
          if e = 'u' then
            match rest1 with
            | a :: b :: c2 :: d :: rest2 =>
              match unicodeEscape a b c2 d, readStringBody rest2 with
              | some ch, some (chars, after) => some (ch :: chars, after)
              | _, _ => none
            | _ => none
          else
            match unescapeChar e, readStringBody rest1 with
            | some ch, some (chars, after) => some (ch :: chars, after)
            | _, _ => none
      else if c.toNat < 0x20 then none
      else
        match readStringBody rest with
        | some (chars, after) => some (c :: chars, after)
        | none => none := by
  rw [readStringBody.eq_def]

/-- Reading the escape of one character gives the character back. -/
theorem readStringBody_quoteChar (c : Char) (rest chars after : List Char)
    (h : readStringBody rest = some (chars, after)) :
    readStringBody (quoteChar c ++ rest) = some (c :: chars, after) := by
  unfold quoteChar
  split_ifs with h1 h2 h3 h4 h5 h6 h7 h8
  · subst h1
    simp [readStringBody_cons, unescapeChar, h]
  · subst h2
    simp [readStringBody_cons, unescapeChar, h]
  · subst h3
    simp [readStringBody_cons, unescapeChar, h]
  · subst h4
    simp [readStringBody_cons, unescapeChar, h]
  · subst h5
    simp [readStringBody_cons, unescapeChar, h]
  · subst h6
    simp [readStringBody_cons, unescapeChar, h]
  · subst h7
    simp [readStringBody_cons, unescapeChar, h]
  · simp [readStringBody_cons, unicodeEscape_control c h8, h]
  · simp [readStringBody_cons, h1, h2, h8, h]

/-- Reading the text `JSON.stringify` writes for a string, from after the opening
quote, gives the string back and stops after the closing quote. -/
theorem readStringBody_quoted (chars rest : List Char) :
    readStringBody (chars.flatMap quoteChar ++ '\x22' :: rest) = some (chars, rest) := by
  induction chars with
  | nil => simp [readStringBody_cons]
  | cons c tail ih =>
    rw [List.flatMap_cons, List.append_assoc]
    exact readStringBody_quoteChar c _ tail rest ih

/-- Reading the key `inputs` from after its opening quote. -/
theorem readStringBody_inputs (tail : List Char) :
    readStringBody ('i' :: 'n' :: 'p' :: 'u' :: 't' :: 's' :: '\x22' :: tail) =
      some (['i', 'n', 'p', 'u', 't', 's'], tail) := by
  simp [readStringBody_cons]

/-- The text `JSON.stringify` writes for the object with the single property
`inputs` is read as that object, to the end of the text. -/
theorem readValue_inputs (fuel : Nat) (chars : List Char) :
    readValue (fuel + 3)
        ('\x7b' :: '\x22' :: 'i' :: 'n' :: 'p' :: 'u' :: 't' :: 's' :: '\x22' :: ':' :: '\x22' ::
          (chars.flatMap quoteChar ++ ['\x22', '\x7d'])) =
      some (.obj [("inputs", .str (String.mk chars))], []) := by
  have hs : readStringBody (chars.flatMap quoteChar ++ ['\x22', '\x7d']) =
      some (chars, ['\x7d']) := readStringBody_quoted chars _
  have hv : readValue (fuel + 1) ('\x22' :: (chars.flatMap quoteChar ++ ['\x22', '\x7d'])) =
      some (.str (String.mk chars), ['\x7d']) := by
    simp [readValue, skipWs, hs]
  have hm : readMembers (fuel + 2)
      ('\x22' :: 'i' :: 'n' :: 'p' :: 'u' :: 't' :: 's' :: '\x22' :: ':' :: '\x22' ::
        (chars.flatMap quoteChar ++ ['\x22', '\x7d'])) =
      some ([("inputs", .str (String.mk chars))], []) := by
    rw [readMembers]
    simp [skipWs, readStringBody_inputs, hv]
  rw [readValue]
  simp [skipWs, hm]

/-- The body `makeRequest` writes decodes to the object with the single field
`inputs` holding the input text. -/
theorem jsonParse_body (env : Env) (inputText url : String) :
    jsonParse (makeRequest env inputText url).body =
      some (.obj [("inputs", .str inputText)]) := by
  have hdata : (makeRequest env inputText url).body.data =
      '\x7b' :: '\x22' :: 'i' :: 'n' :: 'p' :: 'u' :: 't' :: 's' :: '\x22' :: ':' :: '\x22' ::
        (inputText.data.flatMap quoteChar ++ ['\x22', '\x7d']) := by
    simp [makeRequest, jsonQuote, String.data_append]
  have hlen : (makeRequest env inputText url).body.length + 1 =
      ((inputText.data.flatMap quoteChar).length + 11) + 3 := by
    rw [String.length, hdata]
    simp
  unfold jsonParse
  rw [hlen, hdata, readValue_inputs]
  simp [skipWs]

/-! ## Local validation -/

/-- C1: for every input text whose trim is the empty string, every credential, mode
and network, the run ends with the error `Please enter some text to summarize.`,
an empty summary and the busy flag cleared, and issues no request. -/
theorem blank_input_invalid_input (env : Env) (inputText : String) (net : Network)
    (st : UiState) (h : jsTrim inputText = "") :
    (st.run (handleSummarize env inputText net)).error = some msgInvalidInput ∧
    (st.run (handleSummarize env inputText net)).summary = .str "" ∧
    (st.run (handleSummarize env inputText net)).loading = false ∧
    requests (handleSummarize env inputText net) = [] := by
  rw [handleSummarize_blank env inputText net h]
  simp [UiState.run, UiState.apply, requests]

/-- C1 at the input made of a space, a tab and a line feed, in production mode with
a credential present and a network that would answer. -/
theorem blank_input_invalid_input_witness :
    jsTrim " \t\n" = "" ∧
    ((UiState.mk (.str "old") false none).run
      (handleSummarize ⟨some "hf_token", false, fun _ => "", ""⟩ " \t\n"
        (fun _ => .ok ⟨200, "OK", "", .json (.str "s")⟩))).error = some msgInvalidInput :=
  ⟨by decide,
   (blank_input_invalid_input ⟨some "hf_token", false, fun _ => "", ""⟩ " \t\n"
      (fun _ => .ok ⟨200, "OK", "", .json (.str "s")⟩)
      (UiState.mk (.str "old") false none) (by decide)).1⟩

/-- C2: for every input text that is not blank and every mode and network, when the
credential is `undefined` or the empty string the run ends with the error
`API key is missing. Please set VITE_HUGGING_FACE_TOKEN in your .env file.`, an
empty summary and the busy flag cleared, and issues no request. -/
theorem absent_credential_missing_credential (env : Env) (inputText : String)
    (net : Network) (st : UiState) (hIn : jsTrim inputText ≠ "")
    (hKey : env.apiKey = none ∨ env.apiKey = some "") :
    (st.run (handleSummarize env inputText net)).error = some msgMissingCredential ∧
    (st.run (handleSummarize env inputText net)).summary = .str "" ∧
    (st.run (handleSummarize env inputText net)).loading = false ∧
    requests (handleSummarize env inputText net) = [] := by
  rw [handleSummarize_noKey env inputText net hIn hKey]
  simp [UiState.run, UiState.apply, requests]

/-- C2 at the input `some text` with the credential `undefined`, in development
mode. -/
theorem absent_credential_missing_credential_witness :
    jsTrim "some text" ≠ "" ∧
    ((UiState.mk (.str "old") false none).run
      (handleSummarize ⟨none, true, fun _ => "", ""⟩ "some text"
        (fun _ => .ok ⟨200, "OK", "", .json (.str "s")⟩))).error =
      some msgMissingCredential :=
  ⟨by decide,
   (absent_credential_missing_credential ⟨none, true, fun _ => "", ""⟩ "some text"
      (fun _ => .ok ⟨200, "OK", "", .json (.str "s")⟩)
      (UiState.mk (.str "old") false none) (by decide) (Or.inl rfl)).1⟩

/-! ## Successful responses -/

/-- C3 as stated fails for the empty string: a 200 response with body
`[{"summary_text": ""}]` ends with the malformed-response error, not in success. -/
theorem empty_summary_text_counterexample :
    (finalState env0 "some text"
      (fun _ => .ok ⟨200, "OK", API_URL, .json (.arr [.obj [("summary_text", .str "")]])⟩)
      st0).error = some msgMalformed := by
  decide

/-- C3, amended: for every non-empty string `s`, every valid input and credential and
every mode, when the endpoint answers with a 2xx status and a JSON body that is a
list whose first element is an object with `summary_text` equal to `s`, or an object
with `summary_text` equal to `s`, the run ends with the summary exactly `s`, no
error and the busy flag cleared. -/
theorem summary_field_passed_through (env : Env) (inputText : String) (net : Network)
    (st : UiState) (response : Response) (data : Json) (s : String)
    (hv : Valid env inputText)
    (hnet : net (issuedRequest env inputText) = .ok response)
    (hok : response.ok = true) (hbody : response.body = .json data)
    (hshape : (∃ fields rest, data = .arr (.obj fields :: rest) ∧
                lookupField "summary_text" fields = some (.str s)) ∨
              (∃ fields, data = .obj fields ∧
                lookupField "summary_text" fields = some (.str s)))
    (hs : s ≠ "") :
    finalState env inputText net st = ⟨.str s, false, none⟩ := by
  apply finalState_of_summary env inputText net st response (.str s) hv hnet
  rw [interpret_ok_json env response data hok hbody]
  rcases hshape with ⟨fields, rest, hd, hl⟩ | ⟨fields, hd, hl⟩
  · simp [selectSummary, getProp, hd, hl, truthy, Json.truthy, hs]
  · simp [selectSummary, getProp, hd, hl, truthy, Json.truthy, hs]

/-- C3, amended, at the body `[{"summary_text": "hello"}]` with status 200. -/
theorem summary_field_passed_through_witness :
    finalState env0 "some text"
      (fun _ => .ok ⟨200, "OK", API_URL, .json (.arr [.obj [("summary_text", .str "hello")]])⟩)
      st0 = ⟨.str "hello", false, none⟩ :=
  summary_field_passed_through env0 "some text" _ st0
    ⟨200, "OK", API_URL, .json (.arr [.obj [("summary_text", .str "hello")]])⟩
    (.arr [.obj [("summary_text", .str "hello")]]) "hello"
    ⟨by decide, "hf_token", rfl, by decide⟩ rfl rfl rfl
    (Or.inl ⟨[("summary_text", .str "hello")], [], rfl, by simp [lookupField]⟩) (by decide)

/-- C4: for every string `s`, every valid input and credential and every mode, when
the endpoint answers with a 2xx status and a JSON body that is the bare string `s`,
the run ends with the summary exactly `s`, no error and the busy flag cleared. -/
theorem bare_string_passed_through (env : Env) (inputText : String) (net : Network)
    (st : UiState) (response : Response) (s : String)
    (hv : Valid env inputText)
    (hnet : net (issuedRequest env inputText) = .ok response)
    (hok : response.ok = true) (hbody : response.body = .json (.str s)) :
    finalState env inputText net st = ⟨.str s, false, none⟩ := by
  apply finalState_of_summary env inputText net st response (.str s) hv hnet
  rw [interpret_ok_json env response (.str s) hok hbody]
  simp [selectSummary, getProp, truthy]

/-- C4 at the body `"plain string"` with status 200, in development mode. -/
theorem bare_string_passed_through_witness :
    finalState ⟨some "hf_token", true, fun _ => "", ""⟩ "some text"
      (fun _ => .ok ⟨200, "OK", proxyUrl, .json (.str "plain string")⟩)
      st0 = ⟨.str "plain string", false, none⟩ :=
  bare_string_passed_through ⟨some "hf_token", true, fun _ => "", ""⟩ "some text" _ st0
    ⟨200, "OK", proxyUrl, .json (.str "plain string")⟩ "plain string"
    ⟨by decide, "hf_token", rfl, by decide⟩ rfl rfl rfl

/-- Where the malformed-response error is reached: a 2xx JSON body that is not
`null`, not a string, not a list starting with `null`, and carries no truthy
`summary_text` either in its first element or directly. -/
theorem malformed_when_no_read_throws (env : Env) (inputText : String) (net : Network)
    (st : UiState) (response : Response) (data : Json)
    (hv : Valid env inputText)
    (hnet : net (issuedRequest env inputText) = .ok response)
    (hok : response.ok = true) (hbody : response.body = .json data)
    (hnull : data ≠ .null) (hstr : ∀ s, data ≠ .str s)
    (hfirst : ∀ first rest, data = .arr (first :: rest) →
      first ≠ .null ∧ ∀ fields, first = .obj fields →
        truthy (lookupField "summary_text" fields) = false)
    (hdirect : ∀ fields, data = .obj fields →
      truthy (lookupField "summary_text" fields) = false) :
    finalState env inputText net st = ⟨.str "", false, some msgMalformed⟩ := by
  have hsel : selectSummary env data = .error ⟨"Error", msgMalformed⟩ := by
    cases data with
    | null => exact absurd rfl hnull
    | str s => exact absurd rfl (hstr s)
    | bool b => simp [selectSummary, getProp, truthy_none]
    | num n => simp [selectSummary, getProp, truthy_none]
    | obj fields => simp [selectSummary, getProp, hdirect fields rfl, truthy_none]
    | arr items =>
      cases items with
      | nil => simp [selectSummary, getProp, truthy_none]
      | cons first rest =>
        obtain ⟨hn, hf⟩ := hfirst first rest rfl
        cases first with
        | null => exact absurd rfl hn
        | obj fields => simp [selectSummary, getProp, hf fields rfl, truthy_none]
        | _ => simp [selectSummary, getProp, truthy_none]
  have hi : interpret env response = ([], .error ⟨"Error", msgMalformed⟩) := by
    rw [interpret_ok_json env response data hok hbody, hsel]
  rw [finalState_of_thrown env inputText net st response _ hv hnet hi]
  simp [catchMessage, msgMalformed]

/-- C5 at the body `null` with status 200: the read `data.summary_text` throws a
`TypeError`, and the error shown is the engine's message for it, not the
malformed-response message; no summary is set. -/
theorem null_body_shows_type_error :
    (finalState env0 "some text" (fun _ => .ok ⟨200, "OK", API_URL, .json .null⟩) st0).error =
        some "Cannot read properties of null (reading 'summary_text')" ∧
    (finalState env0 "some text" (fun _ => .ok ⟨200, "OK", API_URL, .json .null⟩) st0).error ≠
        some msgMalformed ∧
    (finalState env0 "some text"
        (fun _ => .ok ⟨200, "OK", API_URL, .json (.arr [.null])⟩) st0).error =
        some "Cannot read properties of null (reading 'summary_text')" := by
  decide

/-! ## Transport failures -/

/-- C6 at the rejection Firefox raises for an unreachable host, a `TypeError` whose
message does not contain `Failed to fetch`: the test of line 133 fails and the
error shown is the rejection's own message, not the connectivity message the
block is there to give for network failures. -/
theorem firefox_rejection_shows_raw_message :
    (finalState env0 "some text"
      (fun _ => .error ⟨"TypeError", "NetworkError when attempting to fetch resource."⟩)
      st0).error = some "NetworkError when attempting to fetch resource." ∧
    (finalState env0 "some text"
      (fun _ => .error ⟨"TypeError", "NetworkError when attempting to fetch resource."⟩)
      st0).error ≠ some msgNetwork := by
  decide

/-- Where a transport failure does end with the connectivity message: a rejection
named `TypeError` whose message contains `Failed to fetch`, as Chromium raises it,
in either mode. -/
theorem failed_fetch_network_error (env : Env) (inputText : String) (net : Network)
    (st : UiState) (err : JsError) (hv : Valid env inputText)
    (hnet : net (issuedRequest env inputText) = .error err)
    (hname : err.name = "TypeError")
    (hmsg : includes err.message "Failed to fetch" = true) :
    finalState env inputText net st = ⟨.str "", false, some msgNetwork⟩ := by
  rw [finalState_of_rejected env inputText net st err hv hnet]
  simp [catchMessage, hname, hmsg]

/-! ## Unsuccessful responses -/

/-- C7 as stated fails for an empty `error` field: a 503 response with body
`{"error": ""}` ends with the model-loading message, not with the field. -/
theorem empty_error_field_counterexample :
    (finalState env0 "some text"
      (fun _ => .ok ⟨503, "Service Unavailable", API_URL, .json (.obj [("error", .str "")])⟩)
      st0).error = some msgModelLoading ∧
    (finalState env0 "some text"
      (fun _ => .ok ⟨503, "Service Unavailable", API_URL, .json (.obj [("error", .str "")])⟩)
      st0).error ≠ some "" := by
  decide

/-- C7, amended: for every non-2xx status and every JSON body that is an object
whose `error` field is a non-empty string `e`, the run ends with the error exactly
`e`, an empty summary and the busy flag cleared, whatever the status code. -/
theorem error_field_surfaced (env : Env) (inputText : String) (net : Network)
    (st : UiState) (response : Response) (fields : List (String × Json)) (e : String)
    (hv : Valid env inputText)
    (hnet : net (issuedRequest env inputText) = .ok response)
    (hok : response.ok = false) (hbody : response.body = .json (.obj fields))
    (hfield : lookupField "error" fields = some (.str e)) (he : e ≠ "") :
    finalState env inputText net st = ⟨.str "", false, some e⟩ := by
  rw [finalState_not_ok env inputText net st response hv hnet hok]
  have hm : errorMessageFromJson env response = .ok (.str e) := by
    simp [errorMessageFromJson, Response.json, hbody, getProp, hfield, truthy,
      Json.truthy, he]
  simp [nonOkError, nonOkMessage, hm, Json.toJsString, catchMessage_plain e he]

/-- C7, amended, at status 503 with the body the inference API sends while a model
loads. -/
theorem error_field_surfaced_witness :
    finalState env0 "some text"
      (fun _ => .ok ⟨503, "Service Unavailable", API_URL,
        .json (.obj [("error", .str "Model facebook/bart-large-cnn is currently loading"),
                     ("estimated_time", .num ⟨false, "20"⟩)])⟩) st0 =
      ⟨.str "", false, some "Model facebook/bart-large-cnn is currently loading"⟩ :=
  error_field_surfaced env0 "some text" _ st0
    ⟨503, "Service Unavailable", API_URL,
      .json (.obj [("error", .str "Model facebook/bart-large-cnn is currently loading"),
                   ("estimated_time", .num ⟨false, "20"⟩)])⟩
    [("error", .str "Model facebook/bart-large-cnn is currently loading"),
     ("estimated_time", .num ⟨false, "20"⟩)]
    "Model facebook/bart-large-cnn is currently loading"
    ⟨by decide, "hf_token", rfl, by decide⟩ rfl rfl rfl (by simp [lookupField]) (by decide)

/-- C8 as stated fails for a body with an `error` field: a 503 response with body
`{"error": "overloaded"}` ends with that field, not with the model-loading
message. -/
theorem loading_error_field_counterexample :
    (finalState env0 "some text"
      (fun _ => .ok ⟨503, "Service Unavailable", API_URL,
        .json (.obj [("error", .str "overloaded")])⟩) st0).error = some "overloaded" ∧
    (finalState env0 "some text"
      (fun _ => .ok ⟨503, "Service Unavailable", API_URL,
        .json (.obj [("error", .str "overloaded")])⟩) st0).error ≠ some msgModelLoading := by
  decide

/-- C8, amended: for every response with status 503 whose body is JSON, is not
`null` and has no truthy `error` field, the run ends with the error
`Model is loading. Please wait a moment and try again.`, an empty summary and the
busy flag cleared. -/
theorem loading_when_no_error_field (env : Env) (inputText : String) (net : Network)
    (st : UiState) (response : Response) (data : Json)
    (hv : Valid env inputText)
    (hnet : net (issuedRequest env inputText) = .ok response)
    (hstatus : response.status = 503) (hbody : response.body = .json data)
    (hnull : data ≠ .null)
    (hfield : ∀ fields, data = .obj fields → truthy (lookupField "error" fields) = false) :
    finalState env inputText net st = ⟨.str "", false, some msgModelLoading⟩ := by
  have hok : response.ok = false := by simp [Response.ok, hstatus]
  rw [finalState_not_ok env inputText net st response hv hnet hok]
  simp [nonOkError, nonOkMessage, errorMessageFromJson_no_error env response data hbody hnull hfield,
    hstatus, Json.toJsString, catchMessage_plain msgModelLoading (by decide)]

/-- C8, amended, at status 503 with the body `{"estimated_time": 20}`. -/
theorem loading_when_no_error_field_witness :
    finalState env0 "some text"
      (fun _ => .ok ⟨503, "Service Unavailable", API_URL,
        .json (.obj [("estimated_time", .num ⟨false, "20"⟩)])⟩) st0 =
      ⟨.str "", false, some msgModelLoading⟩ :=
  loading_when_no_error_field env0 "some text" _ st0
    ⟨503, "Service Unavailable", API_URL, .json (.obj [("estimated_time", .num ⟨false, "20"⟩)])⟩
    (.obj [("estimated_time", .num ⟨false, "20"⟩)])
    ⟨by decide, "hf_token", rfl, by decide⟩ rfl rfl rfl (by simp)
    (by
      intro fields h
      cases h
      simp [lookupField, truthy_none])

/-- C9 as stated fails for a body with an `error` field: a 404 response with body
`{"error": "Not Found"}` ends with that field, which does not contain the model
identifier. -/
theorem not_found_error_field_counterexample :
    (finalState env0 "some text"
      (fun _ => .ok ⟨404, "Not Found", API_URL, .json (.obj [("error", .str "Not Found")])⟩)
      st0).error = some "Not Found" ∧
    includes "Not Found" "facebook/bart-large-cnn" = false := by
  decide

/-- C9, amended: for every response with status 404, whatever URL it reports when
its body is JSON, is not `null` and has no truthy `error` field, and provided the
URL it reports contains `facebook/bart-large-cnn` when its body is not JSON, the
run ends with an error that contains the model identifier
`facebook/bart-large-cnn`, an empty summary and the busy flag cleared. -/
theorem not_found_names_model (env : Env) (inputText : String) (net : Network)
    (st : UiState) (response : Response)
    (hv : Valid env inputText)
    (hnet : net (issuedRequest env inputText) = .ok response)
    (hstatus : response.status = 404)
    (hbody : (∃ data, response.body = .json data ∧ data ≠ .null ∧
                ∀ fields, data = .obj fields → truthy (lookupField "error" fields) = false) ∨
             ((∃ m, response.body = .notJson m) ∧
                includes response.url "facebook/bart-large-cnn" = true)) :
    ∃ msg, finalState env inputText net st = ⟨.str "", false, some msg⟩ ∧
      includes msg "facebook/bart-large-cnn" = true := by
  have hok : response.ok = false := by simp [Response.ok, hstatus]
  rw [finalState_not_ok env inputText net st response hv hnet hok]
  rcases hbody with ⟨data, hb, hnull, hfield⟩ | ⟨hb, hurl⟩
  · refine ⟨msgNotFound, ?_, by decide⟩
    simp [nonOkError, nonOkMessage, errorMessageFromJson_no_error env response data hb hnull hfield,
      hstatus, Json.toJsString, catchMessage_plain msgNotFound (by decide)]
  · obtain ⟨e, he⟩ := errorMessageFromJson_throws env response (Or.inl hb)
    have hne : response.url ≠ "" := by
      intro h
      rw [h] at hurl
      exact absurd hurl (by decide)
    have hinc : includes (msgNotFoundPlain response.url) "facebook/bart-large-cnn" = true := by
      simp only [msgNotFoundPlain, bne_iff_ne, ne_eq, hne, not_false_eq_true, if_true]
      exact includes_append _ _ _ _ hurl
    have hm : msgNotFoundPlain response.url ≠ "" := by
      intro h
      rw [h] at hinc
      exact absurd hinc (by decide)
    refine ⟨msgNotFoundPlain response.url, ?_, hinc⟩
    simp [nonOkError, nonOkMessage, he, hstatus, Json.toJsString, catchMessage_plain _ hm]

/-- C9, amended, at status 404 with a body that is not JSON and the URL of the
request reported. -/
theorem not_found_names_model_witness :
    ∃ msg, finalState env0 "some text"
        (fun _ => .ok ⟨404, "Not Found", API_URL, .notJson "Unexpected token N in JSON"⟩)
        st0 = ⟨.str "", false, some msg⟩ ∧
      includes msg "facebook/bart-large-cnn" = true :=
  not_found_names_model env0 "some text" _ st0
    ⟨404, "Not Found", API_URL, .notJson "Unexpected token N in JSON"⟩
    ⟨by decide, "hf_token", rfl, by decide⟩ rfl rfl
    (Or.inr ⟨⟨_, rfl⟩, by decide⟩)

/-- Where the status code selects the canned message: a non-2xx response whose body
is JSON, is not `null` and has no truthy `error` field. The five messages are
pairwise distinct. -/
theorem status_selects_canned_message (env : Env) (inputText : String) (net : Network)
    (st : UiState) (response : Response) (data : Json)
    (hv : Valid env inputText)
    (hnet : net (issuedRequest env inputText) = .ok response)
    (hbody : response.body = .json data) (hnull : data ≠ .null)
    (hfield : ∀ fields, data = .obj fields → truthy (lookupField "error" fields) = false) :
    (response.status = 503 →
      finalState env inputText net st = ⟨.str "", false, some msgModelLoading⟩) ∧
    (response.status = 401 →
      finalState env inputText net st = ⟨.str "", false, some msgAuth⟩) ∧
    (response.status = 429 →
      finalState env inputText net st = ⟨.str "", false, some msgRateLimited⟩) ∧
    (response.status = 404 →
      finalState env inputText net st = ⟨.str "", false, some msgNotFound⟩) ∧
    (response.status = 410 →
      finalState env inputText net st = ⟨.str "", false, some msgGone⟩) ∧
    [msgModelLoading, msgAuth, msgRateLimited, msgNotFound, msgGone].Nodup := by
  have key : ∀ n m, response.status = n → (200 ≤ n ∧ n ≤ 299 → False) → m ≠ "" →
      (if response.status = 503 then msgModelLoading
        else if response.status = 401 then msgAuth
        else if response.status = 429 then msgRateLimited
        else if response.status = 404 then msgNotFound
        else if response.status = 410 then msgGone
        else msgFailed) = m →
      finalState env inputText net st = ⟨.str "", false, some m⟩ := by
    intro n m hn hr hm hsel
    have hok : response.ok = false := by
      simp only [Response.ok, hn, Bool.and_eq_false_imp, decide_eq_true_eq,
        decide_eq_false_iff_not]
      intro h1 h2
      exact hr ⟨h1, h2⟩
    rw [finalState_not_ok env inputText net st response hv hnet hok]
    simp [nonOkError, nonOkMessage, errorMessageFromJson_no_error env response data hbody hnull hfield,
      hsel, Json.toJsString, catchMessage_plain m hm]
  refine ⟨fun h => key 503 _ h (by omega) (by decide) (by simp [h]),
    fun h => key 401 _ h (by omega) (by decide) (by simp [h]),
    fun h => key 429 _ h (by omega) (by decide) (by simp [h]),
    fun h => key 404 _ h (by omega) (by decide) (by simp [h]),
    fun h => key 410 _ h (by omega) (by decide) (by simp [h]), by decide⟩

/-- C10 at status 503 with the JSON body `null`, which has no `error` field: the
read `errorData.error` throws, the inner `catch` takes over, and the error shown is
the plain status line, not the model-loading message. -/
theorem null_error_body_skips_mapping :
    (finalState env0 "some text"
      (fun _ => .ok ⟨503, "Service Unavailable", API_URL, .json .null⟩) st0).error =
        some "HTTP 503: Service Unavailable" ∧
    (finalState env0 "some text"
      (fun _ => .ok ⟨503, "Service Unavailable", API_URL, .json .null⟩) st0).error ≠
        some msgModelLoading := by
  decide

/-! ## Outcomes, requests and the busy flag -/

/-- C13: for every input text, credential, mode, network outcome and prior state
the handler completes with a run of effects, and the state it leaves is exactly one
of the two outcomes: success (no error, and the summary is the value a `setSummary`
after the resets was given) or failure (an error message that is not empty, and an
empty summary). -/
theorem ends_in_exactly_one_outcome (env : Env) (inputText : String) (net : Network)
    (st : UiState) :
    Xor'
      ((finalState env inputText net st).error = none ∧
        ∃ v, Event.setSummary v ∈ (handleSummarize env inputText net).drop 3 ∧
          (finalState env inputText net st).summary = v)
      (∃ m, (finalState env inputText net st).error = some m ∧ m ≠ "" ∧
        (finalState env inputText net st).summary = .str "") := by
  have failure : ∀ m, m ≠ "" →
      handleSummarize env inputText net =
        [.setLoading true, .setError none, .setSummary (.str ""),
          .setError (some m), .setLoading false] ∨
      handleSummarize env inputText net =
        [.setLoading true, .setError none, .setSummary (.str ""),
          .fetch (issuedRequest env inputText), .setError (some m), .setLoading false] →
      Xor'
        ((finalState env inputText net st).error = none ∧
          ∃ v, Event.setSummary v ∈ (handleSummarize env inputText net).drop 3 ∧
            (finalState env inputText net st).summary = v)
        (∃ m, (finalState env inputText net st).error = some m ∧ m ≠ "" ∧
          (finalState env inputText net st).summary = .str "") := by
    intro m hm h
    have hfin : finalState env inputText net st = ⟨.str "", false, some m⟩ := by
      unfold finalState
      rcases h with h | h <;> rw [h] <;> simp [UiState.run, UiState.apply]
    refine Or.inr ⟨⟨m, ?_, hm, ?_⟩, ?_⟩
    · rw [hfin]
    · rw [hfin]
    · rintro ⟨h1, -⟩
      rw [hfin] at h1
      exact absurd h1 (by simp)
  rcases blank_or_noKey_or_valid env inputText with hb | ⟨hIn, hKey⟩ | hv
  · exact failure msgInvalidInput (by decide)
      (Or.inl (handleSummarize_blank env inputText net hb))
  · exact failure msgMissingCredential (by decide)
      (Or.inl (handleSummarize_noKey env inputText net hIn hKey))
  · rcases handleSummarize_valid_shapes env inputText net hv with ⟨v, h⟩ | ⟨err, h⟩
    · have hfin : finalState env inputText net st = ⟨v, false, none⟩ := by
        unfold finalState
        rw [h]
        simp [UiState.run, UiState.apply]
      refine Or.inl ⟨⟨?_, v, ?_, ?_⟩, ?_⟩
      · rw [hfin]
      · rw [h]
        simp
      · rw [hfin]
      · rintro ⟨m, h1, -⟩
        rw [hfin] at h1
        exact absurd h1 (by simp)
    · exact failure (catchMessage err) (catchMessage_ne_empty err) (Or.inr h)

/-- C14: for every valid input and credential and every network, the run issues
exactly one request, the one built by `makeRequest` for the URL of the mode: the
proxy path in development mode and the direct URL in production mode. A rejected
call is not followed by another. -/
theorem one_request_by_mode (env : Env) (inputText : String) (net : Network)
    (hv : Valid env inputText) :
    requests (handleSummarize env inputText net) =
      [makeRequest env inputText
        (if env.dev then "/api/huggingface/models/facebook/bart-large-cnn"
          else "https://router.huggingface.co/hf-inference/models/facebook/bart-large-cnn")] ∧
    (env.dev = true → ∀ req ∈ requests (handleSummarize env inputText net),
      req.url = "/api/huggingface/models/facebook/bart-large-cnn") ∧
    (env.dev = false → ∀ req ∈ requests (handleSummarize env inputText net),
      req.url =
        "https://router.huggingface.co/hf-inference/models/facebook/bart-large-cnn") := by
  have hreq : requests (handleSummarize env inputText net) = [issuedRequest env inputText] := by
    rcases handleSummarize_valid_shapes env inputText net hv with ⟨v, h⟩ | ⟨err, h⟩ <;>
      rw [h] <;> simp [requests]
  rw [hreq]
  refine ⟨rfl, ?_, ?_⟩
  · intro hd req hmem
    simp only [List.mem_singleton] at hmem
    simp [hmem, issuedRequest, endpointUrl, makeRequest, hd, proxyUrl]
  · intro hd req hmem
    simp only [List.mem_singleton] at hmem
    simp [hmem, issuedRequest, endpointUrl, makeRequest, hd, API_URL]

/-- C14 in production mode with a network that rejects every call: the only
request is the one to the direct URL. -/
theorem one_request_by_mode_witness :
    requests (handleSummarize env0 "some text"
      (fun _ => .error ⟨"TypeError", "Failed to fetch"⟩)) =
      [makeRequest env0 "some text"
        "https://router.huggingface.co/hf-inference/models/facebook/bart-large-cnn"] :=
  (one_request_by_mode env0 "some text" (fun _ => .error ⟨"TypeError", "Failed to fetch"⟩)
    ⟨by decide, "hf_token", rfl, by decide⟩).1

/-- C16: the state a run leaves does not depend on the state it started from: two
runs with the same input text, credential, mode and network leave the same summary,
error and busy flag whatever was held before each. -/
theorem final_state_independent_of_prior (env : Env) (inputText : String) (net : Network)
    (st1 st2 : UiState) :
    finalState env inputText net st1 = finalState env inputText net st2 := by
  simp [finalState, handleSummarize, UiState.run, UiState.apply]

/-- C17: on every path the first effect of the handler sets the busy flag, its last
effect clears it, and the flag is clear in the state the run leaves. -/
theorem busy_flag_set_then_cleared (env : Env) (inputText : String) (net : Network)
    (st : UiState) :
    (handleSummarize env inputText net).head? = some (.setLoading true) ∧
    (handleSummarize env inputText net).getLast? = some (.setLoading false) ∧
    (finalState env inputText net st).loading = false := by
  unfold finalState
  rcases blank_or_noKey_or_valid env inputText with hb | ⟨hIn, hKey⟩ | hv
  · rw [handleSummarize_blank env inputText net hb]
    simp [UiState.run, UiState.apply]
  · rw [handleSummarize_noKey env inputText net hIn hKey]
    simp [UiState.run, UiState.apply]
  · rcases handleSummarize_valid_shapes env inputText net hv with ⟨v, h⟩ | ⟨err, h⟩ <;>
      rw [h] <;> simp [UiState.run, UiState.apply]

/-- C18: when the input is blank and the credential is absent as well, the run ends
with the invalid-input message, not the missing-credential message, and issues no
request. -/
theorem input_check_precedes_credential_check (env : Env) (inputText : String)
    (net : Network) (st : UiState) (hIn : jsTrim inputText = "")
    (_hKey : env.apiKey = none ∨ env.apiKey = some "") :
    (finalState env inputText net st).error = some msgInvalidInput ∧
    (finalState env inputText net st).error ≠ some msgMissingCredential ∧
    requests (handleSummarize env inputText net) = [] := by
  unfold finalState
  rw [handleSummarize_blank env inputText net hIn]
  simp [UiState.run, UiState.apply, requests]
  decide

/-- C18 at the empty input with the credential `undefined`. -/
theorem input_check_precedes_credential_check_witness :
    (finalState ⟨none, false, fun _ => "", ""⟩ "" (fun _ => .error ⟨"TypeError", ""⟩) st0).error =
      some msgInvalidInput :=
  (input_check_precedes_credential_check ⟨none, false, fun _ => "", ""⟩ ""
    (fun _ => .error ⟨"TypeError", ""⟩) st0 (by decide) (Or.inl rfl)).1

/-! ## Other statuses and bodies that are not JSON -/

/-- C11 at status 500 with the JSON body `{}`: the chain of lines 87 to 99 has no
case for the status, the message keeps its initial value
`Failed to get a summary.`, and the error shown contains neither the status code
nor the reason phrase. -/
theorem other_status_json_keeps_default :
    (finalState env0 "some text"
      (fun _ => .ok ⟨500, "Internal Server Error", API_URL, .json (.obj [])⟩) st0).error =
        some "Failed to get a summary." ∧
    includes "Failed to get a summary." "500" = false ∧
    includes "Failed to get a summary." "Internal Server Error" = false := by
  decide

/-- Where a status other than 503, 401, 429, 404 and 410 does end with its code and
reason phrase: a non-2xx response whose body is not JSON, through line 109. -/
theorem other_status_plain_body (env : Env) (inputText : String) (net : Network)
    (st : UiState) (response : Response) (m : String)
    (hv : Valid env inputText)
    (hnet : net (issuedRequest env inputText) = .ok response)
    (hok : response.ok = false) (hbody : response.body = .notJson m)
    (h404 : response.status ≠ 404) (h410 : response.status ≠ 410) :
    finalState env inputText net st =
      ⟨.str "", false, some (msgHttp response.status response.statusText)⟩ ∧
    includes (msgHttp response.status response.statusText) (toString response.status) = true ∧
    includes (msgHttp response.status response.statusText) response.statusText = true := by
  rw [finalState_not_ok env inputText net st response hv hnet hok]
  refine ⟨?_, ?_, ?_⟩
  · have hne := plain_message_ne_empty response.status response.statusText response.url
    simp only [h404, h410, if_false] at hne
    simp [nonOkError_plain env response m hbody, h404, h410, catchMessage_plain _ hne]
  · exact includes_append_right _ _ _
      (includes_append_right _ _ _ (includes_append_left _ _ _ (includes_self _)))
  · exact includes_append_left _ _ _ (includes_self _)

/-- C12 at status 503: a JSON body without an `error` field ends with the
model-loading message of line 90, while a body that is not JSON ends with the
plain status line of line 109, the inner `catch` having no case for 503. -/
theorem plain_body_503_skips_model_loading :
    (finalState env0 "some text"
      (fun _ => .ok ⟨503, "Service Unavailable", API_URL, .json (.obj [])⟩) st0).error =
        some msgModelLoading ∧
    (finalState env0 "some text"
      (fun _ => .ok ⟨503, "Service Unavailable", API_URL, .notJson "Unexpected token <"⟩)
      st0).error = some "HTTP 503: Service Unavailable" ∧
    (finalState env0 "some text"
      (fun _ => .ok ⟨503, "Service Unavailable", API_URL, .notJson "Unexpected token <"⟩)
      st0).error ≠ some msgModelLoading := by
  decide

/-! ## Where the connectivity message comes from -/

/-- C19 as stated fails for a body that carries the connectivity text itself: a 500
response whose JSON `error` field is that text ends with it, the field being shown
verbatim. -/
theorem echoed_network_text_counterexample :
    (finalState env0 "some text"
      (fun _ => .ok ⟨500, "Internal Server Error", API_URL,
        .json (.obj [("error", .str msgNetwork)])⟩) st0).error = some msgNetwork := by
  rw [finalState_not_ok env0 "some text" _ st0
    ⟨500, "Internal Server Error", API_URL, .json (.obj [("error", .str msgNetwork)])⟩
    ⟨by decide, "hf_token", rfl, by decide⟩ rfl rfl]
  rfl

/-- A received response can raise a `TypeError` of its own: with the `error` field an
object that has an own `toString`, `new Error(errorMessage)` on line 112 cannot
convert it, and the error shown is the engine's message for that. -/
theorem unconvertible_error_field_shows_type_error :
    (finalState env0 "some text"
      (fun _ => .ok ⟨500, "Internal Server Error", API_URL,
        .json (.obj [("error", .obj [("toString", .str "x")])])⟩) st0).error =
      some "Cannot convert object to primitive value" := by
  decide

/-- C19, amended: for every response received, whatever its status and body, with
an engine neither of whose two `TypeError` messages (for a read of `summary_text`
on `null`, and for an object that cannot be converted to a primitive value)
contains `Failed to fetch`, the connectivity branch of the outer `catch` is not
taken: the error shown, if any, is the message of the error thrown while the
response was interpreted, or the unexpected-error message when that is empty. So
the error is the connectivity message only if the thrown message is that very
text. -/
theorem response_error_is_thrown_message (env : Env) (inputText : String) (net : Network)
    (st : UiState) (response : Response)
    (hv : Valid env inputText)
    (hnet : net (issuedRequest env inputText) = .ok response)
    (hengine : includes (env.typeErrorMessage "summary_text") "Failed to fetch" = false)
    (hconvert : includes env.toPrimitiveMessage "Failed to fetch" = false) :
    ((finalState env inputText net st).error = none ∨
      ∃ err, (interpret env response).2 = .error err ∧
        (finalState env inputText net st).error =
          some (if err.message != "" then err.message else msgUnexpected)) ∧
    ((finalState env inputText net st).error = some msgNetwork →
      ∃ err, (interpret env response).2 = .error err ∧ err.message = msgNetwork) := by
  rcases interpret_cases env response with ⟨v, hi⟩ | ⟨err, hi⟩
  · rw [finalState_of_summary env inputText net st response v hv hnet hi]
    exact ⟨Or.inl rfl, fun h => absurd h (by simp)⟩
  · rw [finalState_of_thrown env inputText net st response err hv hnet hi]
    have hc : catchMessage err = if err.message != "" then err.message else msgUnexpected := by
      rcases interpret_error env response [] err hi with hn | hn | hn | hn
      · simp [catchMessage, hn]
      · simp [catchMessage, hn]
      · simp [catchMessage, hn, hengine]
      · simp [catchMessage, hn, hconvert]
    refine ⟨Or.inr ⟨err, by rw [hi], by rw [hc]⟩, ?_⟩
    intro h
    refine ⟨err, by rw [hi], ?_⟩
    simp only [hc, Option.some.injEq] at h
    split_ifs at h with hm
    · exact h
    · exact absurd h (by decide)

/-- C19, amended, at a 500 response whose JSON `error` field is `Failed to fetch`:
the error shown is the message of the error thrown for that response. -/
theorem response_error_is_thrown_message_witness :
    (finalState env0 "some text"
      (fun _ => .ok ⟨500, "Internal Server Error", API_URL,
        .json (.obj [("error", .str "Failed to fetch")])⟩) st0).error = none ∨
      ∃ err, (interpret env0 ⟨500, "Internal Server Error", API_URL,
          .json (.obj [("error", .str "Failed to fetch")])⟩).2 = .error err ∧
        (finalState env0 "some text"
          (fun _ => .ok ⟨500, "Internal Server Error", API_URL,
            .json (.obj [("error", .str "Failed to fetch")])⟩) st0).error =
          some (if err.message != "" then err.message else msgUnexpected) :=
  (response_error_is_thrown_message env0 "some text" _ st0
    ⟨500, "Internal Server Error", API_URL,
      .json (.obj [("error", .str "Failed to fetch")])⟩
    ⟨by decide, "hf_token", rfl, by decide⟩ rfl (by decide) (by decide)).1

/-! ## The request -/

/-- C15: for every input text and every credential `c`, the request `makeRequest`
builds for any URL has method `POST`, the header `Authorization` equal to `Bearer `
followed by `c`, the header `Content-Type` equal to `application/json` and no
other header, and a body whose JSON decoding is the object with the single field
`inputs` equal to the input text as entered, not trimmed. -/
theorem request_carries_input_and_credential (env : Env) (inputText url c : String)
    (hKey : env.apiKey = some c) :
    (makeRequest env inputText url).url = url ∧
    (makeRequest env inputText url).method = "POST" ∧
    (makeRequest env inputText url).headers =
      [("Authorization", "Bearer " ++ c), ("Content-Type", "application/json")] ∧
    jsonParse (makeRequest env inputText url).body =
      some (.obj [("inputs", .str inputText)]) := by
  refine ⟨rfl, rfl, ?_, jsonParse_body env inputText url⟩
  simp [makeRequest, hKey]

/-- C15 at an input with white space at both ends, a quote and a line feed. -/
theorem request_carries_input_and_credential_witness :
    (makeRequest env0 "  say \"hi\"\n " API_URL).headers =
      [("Authorization", "Bearer hf_token"), ("Content-Type", "application/json")] ∧
    jsonParse (makeRequest env0 "  say \"hi\"\n " API_URL).body =
      some (.obj [("inputs", .str "  say \"hi\"\n ")]) :=
  ⟨(request_carries_input_and_credential env0 "  say \"hi\"\n " API_URL "hf_token" rfl).2.2.1,
   (request_carries_input_and_credential env0 "  say \"hi\"\n " API_URL "hf_token" rfl).2.2.2⟩

end TextSummarizer
